import Mathlib

/-!
Shallow embedding of `main.py`: closed-form plane stress/strain evaluation
around an elliptical inclusion, on a 400x400 polar grid, with a von Mises
yield mask.  Machine floats are modelled by real numbers.
-/

namespace Kursovaya

noncomputable section

/-- Inclusion semi-axis `a = 0.02` (line 11 of `main.py`). -/
def a : ℝ := 0.02

/-- Plate semi-axis `b = 0.015` (line 12). -/
def b : ℝ := 0.015

/-- Load along x, `P1 = 150.0` MPa (line 13). -/
def P1 : ℝ := 150

/-- Load along y, `P2 = 150.0` MPa (line 14). -/
def P2 : ℝ := 150

/-- Internal pressure `P0 = 50.0` MPa (line 15). -/
def P0 : ℝ := 50

/-- Plate shear modulus `G = 810.0` MPa (line 16). -/
def G : ℝ := 810

/-- Inclusion shear modulus `G1 = 1216.0` MPa (line 17). -/
def G1 : ℝ := 1216

/-- Young modulus `E = 200000.0` MPa (line 18). -/
def E : ℝ := 200000

/-- Poisson ratio `nu = 0.3` (line 19). -/
def nu : ℝ := 0.3

/-- Yield stress `yield_stress = 250.0` MPa (line 20). -/
def yield_stress : ℝ := 250

/-- `np.linspace lo hi n` at index `k`: `n` evenly spaced samples from `lo`
to `hi`, endpoints included (step `(hi - lo)/(n - 1)`). -/
def linspace (lo hi : ℝ) (n k : ℕ) : ℝ := lo + k * ((hi - lo) / ((n : ℝ) - 1))

/-- `theta = np.linspace(0, 2*np.pi, 400)` (line 23). -/
def theta (i : Fin 400) : ℝ := linspace 0 (2 * Real.pi) 400 i.val

/-- `r = np.linspace(a, b, 400)` (line 24). -/
def r (j : Fin 400) : ℝ := linspace a b 400 j.val

/-- `R, Theta = np.meshgrid(r, theta)` (line 25): `R[i, j] = r[j]`. -/
def R (i j : Fin 400) : ℝ := r j

/-- `Theta[i, j] = theta[i]` (line 25). -/
def Theta (i j : Fin 400) : ℝ := theta i

/-- `stress_xx` (lines 32-33). -/
def stress_xx (r θ P1 P0 a G G1 : ℝ) : ℝ :=
  P1 * (1 + a ^ 2 / r ^ 2 * Real.cos (2 * θ)) +
    P0 * (a ^ 2 / r ^ 2) * Real.cos (2 * θ) * (G / G1)

/-- `stress_yy` (lines 36-37). -/
def stress_yy (r θ P2 P0 a G G1 : ℝ) : ℝ :=
  P2 * (1 - a ^ 2 / r ^ 2 * Real.cos (2 * θ)) +
    P0 * (a ^ 2 / r ^ 2) * Real.cos (2 * θ) * (G / G1)

/-- `stress_xy` (lines 40-41). -/
def stress_xy (r θ P0 a G G1 : ℝ) : ℝ :=
  -P0 * (a ^ 2 / r ^ 2) * Real.sin (2 * θ) * (G / G1)

/-- `strain_xx` (lines 44-45). -/
def strain_xx (sigma_xx sigma_yy E nu : ℝ) : ℝ := 1 / E * (sigma_xx - nu * sigma_yy)

/-- `strain_yy` (lines 48-49). -/
def strain_yy (sigma_xx sigma_yy E nu : ℝ) : ℝ := 1 / E * (sigma_yy - nu * sigma_xx)

/-- `strain_xy` (lines 52-53). -/
def strain_xy (sigma_xy G : ℝ) : ℝ := 1 / G * sigma_xy

/-- `sigma_xx = stress_xx(R, Theta, P1, P0, a, G, G1)` (line 56). -/
def sigma_xx (i j : Fin 400) : ℝ := stress_xx (R i j) (Theta i j) P1 P0 a G G1

/-- `sigma_yy = stress_yy(R, Theta, P2, P0, a, G, G1)` (line 57). -/
def sigma_yy (i j : Fin 400) : ℝ := stress_yy (R i j) (Theta i j) P2 P0 a G G1

/-- `sigma_xy = stress_xy(R, Theta, P0, a, G, G1)` (line 58). -/
def sigma_xy (i j : Fin 400) : ℝ := stress_xy (R i j) (Theta i j) P0 a G G1

/-- `e_xx = strain_xx(sigma_xx, sigma_yy, E, nu)` (line 61). -/
def e_xx (i j : Fin 400) : ℝ := strain_xx (sigma_xx i j) (sigma_yy i j) E nu

/-- `e_yy = strain_yy(sigma_xx, sigma_yy, E, nu)` (line 62). -/
def e_yy (i j : Fin 400) : ℝ := strain_yy (sigma_xx i j) (sigma_yy i j) E nu

/-- `e_xy = strain_xy(sigma_xy, G)` (line 63). -/
def e_xy (i j : Fin 400) : ℝ := strain_xy (sigma_xy i j) G

/-- `sigma_e = np.sqrt(sigma_xx**2 + sigma_yy**2 - sigma_xx*sigma_yy + 3*sigma_xy**2)`
(line 66). -/
def sigma_e (i j : Fin 400) : ℝ :=
  Real.sqrt (sigma_xx i j ^ 2 + sigma_yy i j ^ 2 - sigma_xx i j * sigma_yy i j +
    3 * sigma_xy i j ^ 2)

/-- `plastic_boundary = sigma_e > yield_stress` (line 69), element-wise. -/
def plastic_boundary (i j : Fin 400) : Prop := sigma_e i j > yield_stress

/-- Claim C1: for every nonzero radius, every angle and any parameter values,
the three stress evaluators compute exactly the closed-form expressions
`P1*(1 + (a/r)^2*cos 2θ) + P0*(a/r)^2*cos 2θ*(G/G1)`,
`P2*(1 - (a/r)^2*cos 2θ) + P0*(a/r)^2*cos 2θ*(G/G1)` and
`-P0*(a/r)^2*sin 2θ*(G/G1)`. -/
theorem stress_closed_form (r θ p1 p2 p0 av g g1 : ℝ) (hr : r ≠ 0) :
    stress_xx r θ p1 p0 av g g1 =
      p1 * (1 + (av / r) ^ 2 * Real.cos (2 * θ)) +
        p0 * (av / r) ^ 2 * Real.cos (2 * θ) * (g / g1) ∧
    stress_yy r θ p2 p0 av g g1 =
      p2 * (1 - (av / r) ^ 2 * Real.cos (2 * θ)) +
        p0 * (av / r) ^ 2 * Real.cos (2 * θ) * (g / g1) ∧
    stress_xy r θ p0 av g g1 =
      -(p0 * (av / r) ^ 2 * Real.sin (2 * θ) * (g / g1)) := by
  refine ⟨?_, ?_, ?_⟩ <;>
    simp only [stress_xx, stress_yy, stress_xy, div_pow] <;> ring

/-- Witness for C1 at `r = 2`, `θ = 0` and unit parameters. -/
theorem stress_closed_form_witness :
    stress_xx 2 0 1 1 1 1 1 =
      1 * (1 + ((1 : ℝ) / 2) ^ 2 * Real.cos (2 * 0)) +
        1 * ((1 : ℝ) / 2) ^ 2 * Real.cos (2 * 0) * (1 / 1) ∧
    stress_yy 2 0 1 1 1 1 1 =
      1 * (1 - ((1 : ℝ) / 2) ^ 2 * Real.cos (2 * 0)) +
        1 * ((1 : ℝ) / 2) ^ 2 * Real.cos (2 * 0) * (1 / 1) ∧
    stress_xy 2 0 1 1 1 1 =
      -(1 * ((1 : ℝ) / 2) ^ 2 * Real.sin (2 * 0) * (1 / 1)) :=
  stress_closed_form 2 0 1 1 1 1 1 1 (by norm_num)

/-- Counterexample to C2 as stated: at grid point `(0, 0)` the radial
coordinate is `a = 0.02`, and `a ≤ r ∧ r ≤ b` fails because the code sets
`b = 0.015 < a`. -/
theorem grid_r_not_in_a_b : ¬ (a ≤ R 0 0 ∧ R 0 0 ≤ b) := by
  simp only [R, r, linspace, a, b, Fin.val_zero, Nat.cast_zero]
  norm_num

/-- Claim C2 (amended): every grid point of the 400x400 grid has its radial
coordinate in `[b, a]` (the code sets `b = 0.015 < a = 0.02`, so `linspace`
runs descending from `a` to `b`), its angular coordinate in `[0, 2π]`, the
grid point `(i, j)` carries exactly the combination of the `j`-th radial
sample with the `i`-th angular sample, and distinct grid points carry
distinct combinations. -/
theorem grid_bounds_and_coverage :
    (∀ i j : Fin 400,
        b ≤ R i j ∧ R i j ≤ a ∧ 0 ≤ Theta i j ∧ Theta i j ≤ 2 * Real.pi ∧
        R i j = r j ∧ Theta i j = theta i) ∧
    Function.Injective (fun p : Fin 400 × Fin 400 => (Theta p.1 p.2, R p.1 p.2)) := by
  constructor
  · intro i j
    have hj : ((j.val : ℕ) : ℝ) ≤ 399 := by exact_mod_cast Nat.lt_succ_iff.mp j.isLt
    have hj0 : (0 : ℝ) ≤ ((j.val : ℕ) : ℝ) := Nat.cast_nonneg _
    have hi : ((i.val : ℕ) : ℝ) ≤ 399 := by exact_mod_cast Nat.lt_succ_iff.mp i.isLt
    have hi0 : (0 : ℝ) ≤ ((i.val : ℕ) : ℝ) := Nat.cast_nonneg _
    refine ⟨?_, ?_, ?_, ?_, rfl, rfl⟩
    · simp only [R, r, linspace, a, b]
      norm_num
      linarith
    · simp only [R, r, linspace, a, b]
      norm_num
    · simp only [Theta, theta, linspace]
      have : (0 : ℝ) ≤ ((i.val : ℕ) : ℝ) * ((2 * Real.pi - 0) / ((400 : ℝ) - 1)) := by
        have hpi : (0 : ℝ) ≤ (2 * Real.pi - 0) / ((400 : ℝ) - 1) := by
          rw [sub_zero]
          positivity
        exact mul_nonneg hi0 hpi
      linarith
    · simp only [Theta, theta, linspace]
      have key : (0 : ℝ) ≤ (399 - ((i.val : ℕ) : ℝ)) * ((2 * Real.pi - 0) / ((400 : ℝ) - 1)) := by
        have hpi : (0 : ℝ) ≤ (2 * Real.pi - 0) / ((400 : ℝ) - 1) := by
          rw [sub_zero]
          positivity
        exact mul_nonneg (by linarith) hpi
      nlinarith [key]
  · rintro ⟨i, j⟩ ⟨i', j'⟩ hpq
    have hθ : Theta i j = Theta i' j' := congrArg Prod.fst hpq
    have hrr : R i j = R i' j' := congrArg Prod.snd hpq
    simp only [Theta, theta, linspace] at hθ
    simp only [R, r, linspace] at hrr
    have hcθ : (2 * Real.pi - 0) / ((400 : ℝ) - 1) ≠ 0 := by
      rw [sub_zero]
      positivity
    have hcr : (b - a) / ((400 : ℝ) - 1) ≠ 0 := by
      norm_num [a, b]
    have hiv : ((i.val : ℕ) : ℝ) = ((i'.val : ℕ) : ℝ) :=
      mul_right_cancel₀ hcθ (by linarith)
    have hjv : ((j.val : ℕ) : ℝ) = ((j'.val : ℕ) : ℝ) :=
      mul_right_cancel₀ hcr (by linarith)
    have hi : i = i' := Fin.ext (by exact_mod_cast hiv)
    have hj : j = j' := Fin.ext (by exact_mod_cast hjv)
    rw [hi, hj]

/-- Claim C3: the equivalent stress at each grid point is
`sqrt(σxx² + σyy² - σxx·σyy + 3·σxy²)` of the grid stress fields, and the
yield mask at each grid point holds exactly when the equivalent stress
exceeds the yield stress `250`. -/
theorem sigma_e_and_plastic_boundary (i j : Fin 400) :
    sigma_e i j =
      Real.sqrt (sigma_xx i j ^ 2 + sigma_yy i j ^ 2 - sigma_xx i j * sigma_yy i j +
        3 * sigma_xy i j ^ 2) ∧
    (plastic_boundary i j ↔ sigma_e i j > 250) :=
  ⟨rfl, Iff.rfl⟩

/-- Claim C4: for any stresses and nonzero moduli, the strain evaluators
return exactly the plane-stress Hooke law values `(σxx - ν·σyy)/E`,
`(σyy - ν·σxx)/E` and `σxy/G`. -/
theorem strain_hooke_law (sxx syy sxy E ν G : ℝ) (hE : E ≠ 0) (hG : G ≠ 0) :
    strain_xx sxx syy E ν = (sxx - ν * syy) / E ∧
    strain_yy sxx syy E ν = (syy - ν * sxx) / E ∧
    strain_xy sxy G = sxy / G := by
  refine ⟨?_, ?_, ?_⟩ <;>
    simp only [strain_xx, strain_yy, strain_xy] <;> ring

/-- Witness for C4 at concrete stresses `1, 2, 3` and moduli `E = 4`,
`ν = 1/2`, `G = 5`. -/
theorem strain_hooke_law_witness :
    strain_xx 1 2 4 (1 / 2) = ((1 : ℝ) - 1 / 2 * 2) / 4 ∧
    strain_yy 1 2 4 (1 / 2) = ((2 : ℝ) - 1 / 2 * 1) / 4 ∧
    strain_xy 3 5 = (3 : ℝ) / 5 :=
  strain_hooke_law 1 2 3 4 (1 / 2) 5 (by norm_num) (by norm_num)

/-- Counterexample to C5 as stated: at `θ = 0`, `r = a` the computed value
is `101325/304 ≈ 333.31`, not `≈ 333.22`: it differs from `333.22` by more
than `0.08` (the spec's intermediate `50·(810/1216) = 33.22` is an
arithmetic slip; the product is `33.31`). -/
theorem stress_xx_fixture_not_333_22 :
    stress_xx a 0 P1 P0 a G G1 ≠ 333.22 ∧
    |stress_xx a 0 P1 P0 a G G1 - 333.22| > 0.08 := by
  have hv : stress_xx a 0 P1 P0 a G G1 = 101325 / 304 := by
    simp only [stress_xx, a, P1, P0, G, G1, mul_zero, Real.cos_zero]
    norm_num
  rw [hv]
  constructor
  · norm_num
  · rw [abs_of_pos (by norm_num)]
    norm_num

/-- Claim C5 (amended): at `θ = 0`, `r = a`, with `P1 = 150`, `P0 = 50`,
`G = 810`, `G1 = 1216`, the value of `stress_xx` equals exactly
`150·(1+1) + 50·1·(810/1216) = 101325/304 ≈ 333.31` MPa. -/
theorem stress_xx_fixture_value :
    stress_xx a 0 P1 P0 a G G1 = 150 * (1 + 1) + 50 * 1 * (810 / 1216) ∧
    stress_xx a 0 P1 P0 a G G1 = 101325 / 304 ∧
    |stress_xx a 0 P1 P0 a G G1 - 333.31| < 0.005 := by
  have hv : stress_xx a 0 P1 P0 a G G1 = 101325 / 304 := by
    simp only [stress_xx, a, P1, P0, G, G1, mul_zero, Real.cos_zero]
    norm_num
  rw [hv]
  refine ⟨by norm_num, rfl, ?_⟩
  rw [abs_of_neg (by norm_num)]
  norm_num

/-- Counterexample to C6 as stated: with the code's `a = 0.02` and
`b = 0.015` the ratio `(a/b)²` is `16/9 > 1`, not `< 1`, and the modulation
factor at `r = b` strictly exceeds its value `1` at `r = a`. -/
theorem modulation_ratio_counterexample :
    ¬ ((a / b) ^ 2 < 1) ∧ (a / a) ^ 2 < (a / b) ^ 2 := by
  norm_num [a, b]

/-- Claim C6 (amended): at `r = a` the modulation factor `(a/r)²` equals `1`;
at `r = b` it equals `(a/b)² = 16/9 > 1`; hence over the radial domain
`[b, a]` the `(a/r)²` modulation term attains its maximum at the plate
boundary `r = b`, not at the inclusion boundary `r = a`. -/
theorem modulation_max_at_plate_boundary :
    (a / a) ^ 2 = 1 ∧ (a / b) ^ 2 = 16 / 9 ∧ 1 < (a / b) ^ 2 ∧
    ∀ rv : ℝ, b ≤ rv → rv ≤ a → (a / rv) ^ 2 ≤ (a / b) ^ 2 := by
  refine ⟨by norm_num [a, b], by norm_num [a, b], by norm_num [a, b], ?_⟩
  intro rv h1 h2
  have hb : (0 : ℝ) < b := by norm_num [b]
  have hrv : (0 : ℝ) < rv := lt_of_lt_of_le hb h1
  rw [div_pow, div_pow]
  have hsq : b ^ 2 ≤ rv ^ 2 := by nlinarith
  have ha2 : (0 : ℝ) ≤ a ^ 2 := sq_nonneg a
  exact div_le_div_of_nonneg_left ha2 (by positivity) hsq

/-- Witness for C6 (amended) at the interior radius `rv = 0.018`. -/
theorem modulation_max_at_plate_boundary_witness :
    (a / 0.018) ^ 2 ≤ (a / b) ^ 2 :=
  modulation_max_at_plate_boundary.2.2.2 0.018 (by norm_num [b]) (by norm_num [a])

/-- Claim C7: for all real stresses the von Mises radicand
`σxx² + σyy² - σxx·σyy + 3·σxy²` is non-negative; in particular it is
non-negative at every grid point, and the equivalent stress `sigma_e` is
real and non-negative everywhere. -/
theorem mises_radicand_nonneg :
    (∀ sxx syy sxy : ℝ, 0 ≤ sxx ^ 2 + syy ^ 2 - sxx * syy + 3 * sxy ^ 2) ∧
    (∀ i j : Fin 400,
      0 ≤ sigma_xx i j ^ 2 + sigma_yy i j ^ 2 - sigma_xx i j * sigma_yy i j +
        3 * sigma_xy i j ^ 2) ∧
    ∀ i j : Fin 400, 0 ≤ sigma_e i j := by
  have h : ∀ sxx syy sxy : ℝ, 0 ≤ sxx ^ 2 + syy ^ 2 - sxx * syy + 3 * sxy ^ 2 := by
    intro x y z
    nlinarith [sq_nonneg (x - y), sq_nonneg x, sq_nonneg y, sq_nonneg z]
  exact ⟨h, fun i j => h _ _ _, fun i j => Real.sqrt_nonneg _⟩

/-- Claim C8: with the program's parameters, `stress_xy` is odd in `θ` and
`stress_xx`, `stress_yy` are even in `θ` for every nonzero radius; and the
identity `stress_xy(r, θ) = -stress_xy(r, θ + π)` fails at `r = a`,
`θ = π/4` (there `sin 2θ` has period `π`, so the two sides are negatives of
the same nonzero value). -/
theorem stress_theta_symmetry :
    (∀ rv θ : ℝ, rv ≠ 0 →
        stress_xy rv θ P0 a G G1 = -stress_xy rv (-θ) P0 a G G1 ∧
        stress_xx rv θ P1 P0 a G G1 = stress_xx rv (-θ) P1 P0 a G G1 ∧
        stress_yy rv θ P2 P0 a G G1 = stress_yy rv (-θ) P2 P0 a G G1) ∧
    stress_xy a (Real.pi / 4) P0 a G G1 ≠
      -stress_xy a (Real.pi / 4 + Real.pi) P0 a G G1 := by
  constructor
  · intro rv θ hrv
    have hneg : 2 * -θ = -(2 * θ) := by ring
    refine ⟨?_, ?_, ?_⟩ <;>
      simp only [stress_xy, stress_xx, stress_yy, hneg, Real.sin_neg, Real.cos_neg] <;>
      ring
  · have h1 : 2 * (Real.pi / 4) = Real.pi / 2 := by ring
    have h2 : 2 * (Real.pi / 4 + Real.pi) = Real.pi / 2 + 2 * Real.pi := by ring
    simp only [stress_xy, h1, h2, Real.sin_add_two_pi, Real.sin_pi_div_two]
    norm_num [P0, a, G, G1]

/-- Witness for C8 at `rv = 1`, `θ = 1`. -/
theorem stress_theta_symmetry_witness :
    stress_xy 1 1 P0 a G G1 = -stress_xy 1 (-1) P0 a G G1 :=
  (stress_theta_symmetry.1 1 1 (by norm_num)).1

/-- Claim C9: for fixed `r ≠ 0` and `θ`, the composed strain
`exx = strain_xx (stress_xx r θ P1 P0 a G G1) (stress_yy r θ P2 P0 a G G1) E ν`
is linear in the load scalars `(P1, P2, P0)`: scaling all loads by `λ`
scales `exx` by `λ`, and `exx` of a sum of load vectors is the sum of the
`exx` values. -/
theorem exx_linear_in_loads (rv θ lam p1 p2 p0 q1 q2 q0 : ℝ) (hrv : rv ≠ 0) :
    strain_xx (stress_xx rv θ (lam * p1) (lam * p0) a G G1)
        (stress_yy rv θ (lam * p2) (lam * p0) a G G1) E nu =
      lam * strain_xx (stress_xx rv θ p1 p0 a G G1)
        (stress_yy rv θ p2 p0 a G G1) E nu ∧
    strain_xx (stress_xx rv θ (p1 + q1) (p0 + q0) a G G1)
        (stress_yy rv θ (p2 + q2) (p0 + q0) a G G1) E nu =
      strain_xx (stress_xx rv θ p1 p0 a G G1)
          (stress_yy rv θ p2 p0 a G G1) E nu +
        strain_xx (stress_xx rv θ q1 q0 a G G1)
          (stress_yy rv θ q2 q0 a G G1) E nu := by
  constructor <;>
    simp only [strain_xx, stress_xx, stress_yy] <;> ring

/-- Witness for C9 at `rv = 1`, `θ = 0`, `λ = 2`, loads `(1, 2, 3)` and
`(4, 5, 6)`. -/
theorem exx_linear_in_loads_witness :
    strain_xx (stress_xx 1 0 (2 * 1) (2 * 3) a G G1)
        (stress_yy 1 0 (2 * 2) (2 * 3) a G G1) E nu =
      2 * strain_xx (stress_xx 1 0 1 3 a G G1)
        (stress_yy 1 0 2 3 a G G1) E nu ∧
    strain_xx (stress_xx 1 0 (1 + 4) (3 + 6) a G G1)
        (stress_yy 1 0 (2 + 5) (3 + 6) a G G1) E nu =
      strain_xx (stress_xx 1 0 1 3 a G G1)
          (stress_yy 1 0 2 3 a G G1) E nu +
        strain_xx (stress_xx 1 0 4 6 a G G1)
          (stress_yy 1 0 5 6 a G G1) E nu :=
  exx_linear_in_loads 1 0 2 1 2 3 4 5 6 (by norm_num)

/-- Claim C10: for `r ≠ 0`, `G ≠ 0`, `G1 ≠ 0`, the composed shear strain
`strain_xy (stress_xy r θ P0 a G G1) G` equals `-P0·(a²/r²)·sin 2θ / G1`:
the plate modulus `G` cancels, so `e_xy` depends only on the inclusion
modulus `G1`; evaluating with a different nonzero plate modulus gives the
same shear strain. -/
theorem exy_independent_of_plate_modulus (rv θ p0 av g gp g1 : ℝ)
    (hrv : rv ≠ 0) (hg : g ≠ 0) (hgp : gp ≠ 0) (hg1 : g1 ≠ 0) :
    strain_xy (stress_xy rv θ p0 av g g1) g =
      -p0 * (av ^ 2 / rv ^ 2) * Real.sin (2 * θ) / g1 ∧
    strain_xy (stress_xy rv θ p0 av g g1) g =
      strain_xy (stress_xy rv θ p0 av gp g1) gp := by
  have key : ∀ gg : ℝ, gg ≠ 0 →
      strain_xy (stress_xy rv θ p0 av gg g1) gg =
        -p0 * (av ^ 2 / rv ^ 2) * Real.sin (2 * θ) / g1 := by
    intro gg hgg
    simp only [strain_xy, stress_xy]
    field_simp
    ring
  exact ⟨key g hg, (key g hg).trans (key gp hgp).symm⟩

/-- Witness for C10 at `rv = 1`, `θ = 0`, `p0 = 1`, `av = 1`, plate moduli
`2` and `3`, inclusion modulus `4`. -/
theorem exy_independent_of_plate_modulus_witness :
    strain_xy (stress_xy 1 0 1 1 2 4) 2 =
      -1 * ((1 : ℝ) ^ 2 / 1 ^ 2) * Real.sin (2 * 0) / 4 ∧
    strain_xy (stress_xy 1 0 1 1 2 4) 2 = strain_xy (stress_xy 1 0 1 1 3 4) 3 :=
  exy_independent_of_plate_modulus 1 0 1 1 2 3 4
    (by norm_num) (by norm_num) (by norm_num) (by norm_num)

end

end Kursovaya
